import Mathlib

/-!
Shallow embedding of the data-preparation pipeline in
`src/us_accidents_analysis.py` (US-Accidents analysis notebook), together
with theorems settling the specification claims about it.

The pipeline operates on an in-memory table.  Rows are modelled as total
functions from the column enumeration to optional cell values (`none` is
pandas `NaN`); the set of columns present at a pipeline stage is carried
as an explicit column list, since the script drops and adds columns.
-/

set_option maxHeartbeats 1000000

namespace USAcc

/-! ## Case-insensitive substring matching

`Series.str.contains(pat, case=False, na=False)` with an alternation
pattern `a|b|...` of plain literals is: lower-case both pattern and text,
and test whether some literal occurs as a contiguous substring. -/

/-- `startsWithL p s` : the char list `p` is a prefix of `s`. -/
def startsWithL : List Char → List Char → Bool
  | [], _ => true
  | _ :: _, [] => false
  | p :: ps, c :: cs => p == c && startsWithL ps cs

/-- `hasSubstr p s` : the char list `p` occurs contiguously inside `s`. -/
def hasSubstr : List Char → List Char → Bool
  | p, [] => startsWithL p []
  | p, c :: cs => startsWithL p (c :: cs) || hasSubstr p cs

/-- Lower-cased character list of a string. -/
def lowerL (s : String) : List Char := s.toList.map Char.toLower

/-- Case-insensitive substring test, the semantics of
`str.contains(pat, case=False)` for a single literal `pat`. -/
def containsCI (pat s : String) : Bool := hasSubstr (lowerL pat) (lowerL s)

/-! ## Weather-indicator derivation (lines 209–222)

Each indicator column is created with
`np.where(df['Weather_Condition'].str.contains(kws, case=False, na=False), 1, 0)`
(null text counts as no-match, hence `0`), and then the loop at
lines 221–222 overwrites the indicator with the (null) weather value on
exactly the rows where `Weather_Condition` is null. -/

/-- Keywords of the `Clear` indicator (line 209). -/
def clearKws : List String := ["Clear"]

/-- Keywords of the `Cloud` indicator (line 210). -/
def cloudKws : List String := ["Cloud", "Overcast"]

/-- Keywords of the `Rain` indicator (line 211). -/
def rainKws : List String := ["Rain", "storm"]

/-- Keywords of the `Heavy_Rain` indicator (line 212). -/
def heavyRainKws : List String :=
  ["Heavy Rain", "Rain Shower", "Heavy T-Storm", "Heavy Thunderstorms"]

/-- Keywords of the `Snow` indicator (line 213). -/
def snowKws : List String := ["Snow", "Sleet", "Ice"]

/-- Keywords of the `Heavy_Snow` indicator (line 214). -/
def heavySnowKws : List String :=
  ["Heavy Snow", "Heavy Sleet", "Heavy Ice Pellets", "Snow Showers", "Squalls"]

/-- Keywords of the `Fog` indicator (line 215). -/
def fogKws : List String := ["Fog"]

/-- `str.contains` with an alternation of the keywords. -/
def strContainsAnyCI (kws : List String) (s : String) : Bool :=
  kws.any (fun k => containsCI k s)

/-- The `np.where(..., 1, 0)` step with `na = False` (lines 209–215). -/
def indicatorInit (kws : List String) (w : Option String) : Nat :=
  match w with
  | none => 0
  | some s => if strContainsAnyCI kws s then 1 else 0

/-- The indicator value after the null-propagation loop (lines 221–222):
rows with null `Weather_Condition` get the null back, others keep the
0/1 from `indicatorInit`. -/
def indicatorFinal (kws : List String) (w : Option String) : Option Nat :=
  match w with
  | none => none
  | some s => some (indicatorInit kws (some s))

/-- The seven derived weather indicator columns of one row. -/
structure WeatherInds where
  Clear : Option Nat
  Cloud : Option Nat
  Rain : Option Nat
  Heavy_Rain : Option Nat
  Snow : Option Nat
  Heavy_Snow : Option Nat
  Fog : Option Nat
  deriving DecidableEq

/-- Weather-indicator derivation for one row's `Weather_Condition` value
(the whole of lines 209–222 for that row). -/
def deriveWeather (w : Option String) : WeatherInds where
  Clear := indicatorFinal clearKws w
  Cloud := indicatorFinal cloudKws w
  Rain := indicatorFinal rainKws w
  Heavy_Rain := indicatorFinal heavyRainKws w
  Snow := indicatorFinal snowKws w
  Heavy_Snow := indicatorFinal heavySnowKws w
  Fog := indicatorFinal fogKws w

/-! ## Wind-direction canonicalization (lines 193–198)

Six sequential `df.loc[df['Wind_Direction'] == ...] = ...` assignments,
each an exact, case-sensitive string comparison. -/

/-- Line 193: `'Calm' -> 'CALM'`. -/
def windStep1 (s : String) : String := if s = "Calm" then "CALM" else s

/-- Line 194: `'West'/'WSW'/'WNW' -> 'W'`. -/
def windStep2 (s : String) : String :=
  if s = "West" ∨ s = "WSW" ∨ s = "WNW" then "W" else s

/-- Line 195: `'South'/'SSW'/'SSE' -> 'S'`. -/
def windStep3 (s : String) : String :=
  if s = "South" ∨ s = "SSW" ∨ s = "SSE" then "S" else s

/-- Line 196: `'North'/'NNW'/'NNE' -> 'N'`. -/
def windStep4 (s : String) : String :=
  if s = "North" ∨ s = "NNW" ∨ s = "NNE" then "N" else s

/-- Line 197: `'East'/'ESE'/'ENE' -> 'E'`. -/
def windStep5 (s : String) : String :=
  if s = "East" ∨ s = "ESE" ∨ s = "ENE" then "E" else s

/-- Line 198: `'Variable' -> 'VAR'`. -/
def windStep6 (s : String) : String := if s = "Variable" then "VAR" else s

/-- The full wind-direction canonicalization, the six assignments applied
in program order. -/
def windClean (s : String) : String :=
  windStep6 (windStep5 (windStep4 (windStep3 (windStep2 (windStep1 s)))))

/-- The left-hand sides of the fixed mapping table. -/
def windCovered : List String :=
  ["Calm", "West", "WSW", "WNW", "South", "SSW", "SSE",
   "North", "NNW", "NNE", "East", "ESE", "ENE", "Variable"]

/-- The canonical outputs of the mapping table. -/
def windCanonical : List String := ["N", "S", "E", "W", "CALM", "VAR"]

/-! ## Day-of-year extraction (lines 240–246) -/

/-- `np.cumsum` over a list of naturals, with running accumulator. -/
def cumsumAux (acc : Nat) : List Nat → List Nat
  | [] => []
  | x :: xs => (acc + x) :: cumsumAux (acc + x) xs

/-- `np.cumsum` (running partial sums, same length as the input). -/
def cumsum (l : List Nat) : List Nat := cumsumAux 0 l

/-- Line 240: `np.cumsum(np.array([0,31,28,31,30,31,30,31,31,30,31,30,31]))`. -/
def days_each_month : List Nat :=
  cumsum [0, 31, 28, 31, 30, 31, 30, 31, 31, 30, 31, 30, 31]

/-- Lines 242–246: `Day = days_each_month[month-1] + day_of_month`.
The year of the timestamp is taken as an argument to record that the
computation never consults it (same non-leap table for every year). -/
def dayOfYear (_year month day : Nat) : Nat :=
  days_each_month.getD (month - 1) 0 + day

/-! ## The table model

A cell is null (`none`) or holds a string or a numeric value (numeric
columns are modelled with `ℚ`, avoiding float rounding, which no claim
depends on).  A row is a total function from the column enumeration to
optional cells; the columns actually present at a pipeline stage are an
explicit list, since the script drops and adds columns as it goes. -/

/-- A non-null cell value. -/
inductive Val where
  | str : String → Val
  | num : ℚ → Val
  deriving DecidableEq

/-- The columns of the dataset (47 input columns) plus the columns the
script derives (7 weather indicators, 6 temporal features, `Severity4`). -/
inductive Column where
  | ID | Severity | Start_Time | End_Time | Start_Lat | Start_Lng
  | End_Lat | End_Lng | Distance_mi | Description | Number | Street
  | Side | City | County | State | Zipcode | Country | Timezone
  | Airport_Code | Weather_Timestamp | Temperature_F | Wind_Chill_F
  | Humidity_pct | Pressure_in | Visibility_mi | Wind_Direction
  | Wind_Speed_mph | Precipitation_in | Weather_Condition
  | Amenity | Bump | Crossing | Give_Way | Junction | No_Exit | Railway
  | Roundabout | Station | Stop | Traffic_Calming | Traffic_Signal
  | Turning_Loop | Sunrise_Sunset | Civil_Twilight | Nautical_Twilight
  | Astronomical_Twilight
  | Clear | Cloud | Rain | Heavy_Rain | Snow | Heavy_Snow | Fog
  | Year | Month | Weekday | Day | Hour | Minute
  | Severity4
  deriving DecidableEq

/-- A row: every column name maps to an optional cell value. -/
abbrev Row := Column → Option Val

/-- A table is an ordered list of rows. -/
abbrev Table := List Row

/-- The 47 columns of the input CSV, in file order. -/
def initialCols : List Column :=
  [.ID, .Severity, .Start_Time, .End_Time, .Start_Lat, .Start_Lng,
   .End_Lat, .End_Lng, .Distance_mi, .Description, .Number, .Street,
   .Side, .City, .County, .State, .Zipcode, .Country, .Timezone,
   .Airport_Code, .Weather_Timestamp, .Temperature_F, .Wind_Chill_F,
   .Humidity_pct, .Pressure_in, .Visibility_mi, .Wind_Direction,
   .Wind_Speed_mph, .Precipitation_in, .Weather_Condition,
   .Amenity, .Bump, .Crossing, .Give_Way, .Junction, .No_Exit, .Railway,
   .Roundabout, .Station, .Stop, .Traffic_Calming, .Traffic_Signal,
   .Turning_Loop, .Sunrise_Sunset, .Civil_Twilight, .Nautical_Twilight,
   .Astronomical_Twilight]

/-- `df.drop(toDrop, axis=1)` at the schema level: the named columns are
removed from the column list (they are all present when the script runs). -/
def dropColumns (toDrop : List Column) (cols : List Column) : List Column :=
  cols.filter (fun c => !decide (c ∈ toDrop))

/-! ## Column Pruner (lines 171 and 185) -/

/-- Line 171: identifier / description / post-hoc leakage columns. -/
def leakageDrop : List Column :=
  [.ID, .Description, .Distance_mi, .End_Time, .End_Lat, .End_Lng]

/-- Line 185: the two columns dropped for having a single class, hardcoded
after a manual inspection of the printed unique counts (lines 179–181). -/
def singleClassDrop : List Column := [.Country, .Turning_Loop]

/-- The Column Pruner stage: the two unconditional drops, in program
order.  It never consults the table's values. -/
def columnPruner (cols : List Column) : List Column :=
  dropColumns singleClassDrop (dropColumns leakageDrop cols)

/-- `df[c].unique().size`: number of distinct values (nulls included) of a
column over the table, via first-occurrence collection as `np.unique`
collects distinct values. -/
def distinctVals (t : Table) (c : Column) : List (Option Val) :=
  (t.map (fun r => r c)).foldl (fun acc v => if v ∈ acc then acc else acc ++ [v]) []

/-- Number of distinct values of column `c` in table `t`. -/
def uniqueCount (t : Table) (c : Column) : Nat := (distinctVals t c).length

/-! ## Schema after the normalizer / temporal stages -/

/-- The seven weather indicator columns added at lines 209–215. -/
def weatherIndCols : List Column :=
  [.Clear, .Cloud, .Rain, .Heavy_Rain, .Snow, .Heavy_Snow, .Fog]

/-- Schema after the Categorical Normalizer: the indicator columns are
added (lines 209–215) and `Weather_Condition` is dropped (line 226). -/
def colsAfterNormalizer : List Column :=
  dropColumns [.Weather_Condition] (columnPruner initialCols ++ weatherIndCols)

/-- Schema after the Temporal Feature Extractor: `Weather_Timestamp` is
dropped (line 234) and the six temporal columns are added (lines 236–248). -/
def colsBeforeResolver : List Column :=
  dropColumns [.Weather_Timestamp] colsAfterNormalizer ++
    [.Year, .Month, .Weekday, .Day, .Hour, .Minute]

/-! ## Missing-Data & Duplicate Resolver (lines 263–300) -/

/-- The columns of the `dropna(subset=...)` call at lines 274–278. -/
def lowMissCols : List Column :=
  [.Street, .City, .Zipcode, .Timezone, .Airport_Code, .Temperature_F,
   .Humidity_pct, .Pressure_in, .Visibility_mi, .Wind_Direction,
   .Wind_Speed_mph, .Sunrise_Sunset, .Civil_Twilight, .Nautical_Twilight,
   .Astronomical_Twilight, .Clear, .Cloud, .Rain, .Heavy_Rain, .Snow,
   .Heavy_Snow, .Fog]

/-- `df.dropna(subset=cs)`: keep the rows that are non-null in every
column of `cs`. -/
def dropnaRows (cs : List Column) (t : Table) : Table :=
  t.filter (fun r => cs.all (fun c => (r c).isSome))

/-- The numeric values of column `c` (nulls skipped, as pandas
aggregations do with `skipna`). -/
def colVals (t : Table) (c : Column) : List ℚ :=
  t.filterMap (fun r => match r c with
    | some (Val.num q) => some q
    | _ => none)

/-- Insertion into a sorted list (ascending). -/
def insertSorted (x : ℚ) : List ℚ → List ℚ
  | [] => [x]
  | y :: ys => if x ≤ y then x :: y :: ys else y :: insertSorted x ys

/-- Ascending sort by repeated insertion. -/
def sortQ (l : List ℚ) : List ℚ := l.foldr insertSorted []

/-- `Series.median()` over the non-null values: middle element of the
sorted values for odd count, mean of the two middle elements for even
count, `NaN` (here `none`) when there are no values. -/
def median (l : List ℚ) : Option ℚ :=
  if (sortQ l).length = 0 then none
  else if (sortQ l).length % 2 = 1 then
    some ((sortQ l).getD ((sortQ l).length / 2) 0)
  else
    some (((sortQ l).getD ((sortQ l).length / 2 - 1) 0 +
           (sortQ l).getD ((sortQ l).length / 2) 0) / 2)

/-- `fillna` of one row at one column: the column gets the fill value if
it was null, all other columns are untouched. -/
def fillnaRow (c : Column) (v : Val) (r : Row) : Row :=
  fun c' => if c' = c then (match r c with
    | none => some v
    | some x => some x)
  else r c'

/-- `df[c] = df[c].fillna(v)` for an optional fill value: filling with
`NaN` (a null median) leaves the table unchanged. -/
def fillna (c : Column) (v : Option ℚ) (t : Table) : Table :=
  match v with
  | none => t
  | some q => t.map (fillnaRow c (Val.num q))

/-- Row equality restricted to the columns present in the schema
(dropped columns do not participate in `df.duplicated`). -/
def eqOn (cols : List Column) (r1 r2 : Row) : Bool :=
  cols.all (fun c => decide (r1 c = r2 c))

/-- Worker for `drop_duplicates(keep='first')`: `seen` holds the rows
already kept; a row equal (on the schema columns) to a kept row is
removed. -/
def dedupAux (cols : List Column) (seen : List Row) : List Row → List Row
  | [] => []
  | r :: rs =>
    if seen.any (fun r' => eqOn cols r' r) then dedupAux cols seen rs
    else r :: dedupAux cols (r :: seen) rs

/-- `df.drop_duplicates(keep='first')` (the subsequent
`reset_index(drop=True)` is identity in the positional model). -/
def dropDuplicates (cols : List Column) (t : Table) : Table :=
  dedupAux cols [] t

/-- Lines 274–278: row-wise deletion over the low-missingness columns. -/
def resolveStep1 (t : Table) : Table := dropnaRows lowMissCols t

/-- Line 290: `df['Precipitation(in)'].fillna(df['Precipitation(in)'].median())`. -/
def resolveStep2 (t : Table) : Table :=
  fillna .Precipitation_in
    (median (colVals (resolveStep1 t) .Precipitation_in)) (resolveStep1 t)

/-- Line 291: `df['Wind_Chill(F)'].fillna(df['Wind_Chill(F)'].median())`,
computed on the table as it stands after line 290. -/
def resolveStep3 (t : Table) : Table :=
  fillna .Wind_Chill_F
    (median (colVals (resolveStep2 t) .Wind_Chill_F)) (resolveStep2 t)

/-- The row-level part of the Missing-Data & Duplicate Resolver
(lines 274–300): row deletion, the two median imputations, then
de-duplication over the schema columns. -/
def resolveRows (cols : List Column) (t : Table) : Table :=
  dropDuplicates cols (resolveStep3 t)

/-- The whole resolver stage (lines 263–300): the unconditional drop of
the `Number` column (line 263), then the row-level resolution.  Returns
the new schema and the new rows. -/
def resolverStage (cols : List Column) (t : Table) : List Column × Table :=
  (dropColumns [.Number] cols, resolveRows (dropColumns [.Number] cols) t)

/-- `df.isna().sum()` summing to zero over the schema columns. -/
def noNulls (cols : List Column) (t : Table) : Bool :=
  t.all (fun r => cols.all (fun c => (r c).isSome))

/-- `df.duplicated().sum() == 0`: no row repeats a later row on the
schema columns (equivalently, all rows pairwise distinct). -/
def noDupsB (cols : List Column) : List Row → Bool
  | [] => true
  | r :: rs => rs.all (fun r' => !eqOn cols r r') && noDupsB cols rs

/-- Pairwise distinctness of rows with respect to the schema columns. -/
def DistinctOn (cols : List Column) (l : List Row) : Prop :=
  l.Pairwise (fun a b => eqOn cols a b = false)

/-! ## Target Binarizer & Balancer (lines 318–329) -/

/-- Lines 318–319: `Severity4` starts at `0` for every row and is set to
`1` exactly where `Severity == 4` (a null severity fails the comparison
and keeps `0`). -/
def severity4Val (sev : Option Val) : Val :=
  if sev = some (Val.num 4) then Val.num 1 else Val.num 0

/-- The binarizer on one row: adds the `Severity4` cell computed from the
row's `Severity` cell. -/
def binarizeRow (r : Row) : Row :=
  fun c => if c = Column.Severity4 then some (severity4Val (r Column.Severity))
  else r c

/-- Schema after the binarizer: `Severity4` added, `Severity` dropped
(line 320). -/
def binarizeCols (cols : List Column) : List Column :=
  dropColumns [.Severity] (cols ++ [.Severity4])

/-- The Target Binarizer stage on the rows. -/
def binarize (t : Table) : Table := t.map binarizeRow

/-- Lines 327–329: `df[df['Severity4']==0][:110000]` concatenated with
`df[df['Severity4']==1][:110000]` — each class filtered and truncated to
the first 110000 rows independently. -/
def balancer (t : Table) : Table :=
  (t.filter (fun r => decide (r Column.Severity4 = some (Val.num 0)))).take 110000 ++
  (t.filter (fun r => decide (r Column.Severity4 = some (Val.num 1)))).take 110000

/-- `df[df['Severity4']==v].shape[0]` — number of rows carrying label `v`. -/
def countLabel (t : Table) (v : Val) : Nat :=
  (t.filter (fun r => decide (r Column.Severity4 = some v))).length

/-! ## Concrete rows and tables for counterexamples and witnesses -/

/-- A row holding only a `Severity4` label. -/
def mkRowSev (q : ℚ) : Row := fun c =>
  if c = Column.Severity4 then some (Val.num q) else none

/-- Three labelled rows: two of class 0, one of class 1. -/
def tC1 : Table := [mkRowSev 0, mkRowSev 0, mkRowSev 1]

/-- A row with severity 1 and the string "R" everywhere else. -/
def rA : Row := fun c =>
  if c = Column.Severity then some (Val.num 1) else some (Val.str "R")

/-- A row with severity 2 and the string "R" everywhere else. -/
def rB : Row := fun c =>
  if c = Column.Severity then some (Val.num 2) else some (Val.str "R")

/-- A fully populated row except for a null `Side` and a null
`Precipitation(in)`. -/
def rC3 : Row := fun c =>
  if c = Column.Side then none
  else if c = Column.Precipitation_in then none
  else if c = Column.Wind_Direction then some (Val.str "N")
  else some (Val.num 0)

/-- A row with every column populated. -/
def rW : Row := fun _ => some (Val.num 0)

/-! ## Lemmas: substring matching -/

theorem startsWithL_iff (p s : List Char) :
    startsWithL p s = true ↔ ∃ t, p ++ t = s := by
  induction p generalizing s with
  | nil => simp [startsWithL]
  | cons x xs ih =>
    cases s with
    | nil => simp [startsWithL]
    | cons c cs =>
      simp only [startsWithL, Bool.and_eq_true, beq_iff_eq, ih]
      constructor
      · rintro ⟨rfl, t, rfl⟩
        exact ⟨t, rfl⟩
      · rintro ⟨t, h⟩
        injection h with h1 h2
        exact ⟨h1, t, h2⟩

theorem hasSubstr_iff (p s : List Char) :
    hasSubstr p s = true ↔ ∃ l r, l ++ p ++ r = s := by
  induction s with
  | nil =>
    simp only [hasSubstr, startsWithL_iff]
    constructor
    · rintro ⟨t, h⟩
      exact ⟨[], t, by simpa using h⟩
    · rintro ⟨l, r, h⟩
      rcases List.append_eq_nil.mp h with ⟨h1, h2⟩
      rcases List.append_eq_nil.mp h1 with ⟨rfl, rfl⟩
      exact ⟨r, by simpa using h2⟩
  | cons c cs ih =>
    simp only [hasSubstr, Bool.or_eq_true, startsWithL_iff, ih]
    constructor
    · rintro (⟨t, h⟩ | ⟨l, r, h⟩)
      · exact ⟨[], t, by simpa using h⟩
      · exact ⟨c :: l, r, by simp [h]⟩
    · rintro ⟨l, r, h⟩
      cases l with
      | nil => exact Or.inl ⟨r, by simpa using h⟩
      | cons x xs =>
        injection h with h1 h2
        exact Or.inr ⟨xs, r, h2⟩

theorem hasSubstr_trans {a b c : List Char}
    (h1 : hasSubstr a b = true) (h2 : hasSubstr b c = true) :
    hasSubstr a c = true := by
  rcases (hasSubstr_iff a b).mp h1 with ⟨l1, r1, hb⟩
  rcases (hasSubstr_iff b c).mp h2 with ⟨l2, r2, hc⟩
  refine (hasSubstr_iff a c).mpr ⟨l2 ++ l1, r1 ++ r2, ?_⟩
  subst hb hc
  simp [List.append_assoc]

/-- The Rain indicator is 1 on any non-null text containing "Rain"
case-insensitively (first keyword of the alternation at line 211). -/
theorem rainInd_of_rain {s : String} (h : containsCI "Rain" s = true) :
    indicatorFinal rainKws (some s) = some 1 := by
  have hc : strContainsAnyCI rainKws s = true := by
    simp [strContainsAnyCI, rainKws, h]
  simp [indicatorFinal, indicatorInit, hc]

/-- The Rain indicator is 1 on any non-null text containing "storm"
case-insensitively (second keyword of the alternation at line 211). -/
theorem rainInd_of_storm {s : String} (h : containsCI "storm" s = true) :
    indicatorFinal rainKws (some s) = some 1 := by
  have hc : strContainsAnyCI rainKws s = true := by
    simp [strContainsAnyCI, rainKws, h]
  simp [indicatorFinal, indicatorInit, hc]

/-! ## Lemmas: wind direction -/

theorem windClean_not_covered (s : String) (h : s ∉ windCovered) :
    windClean s = s := by
  simp only [windCovered, List.mem_cons, List.not_mem_nil, or_false, not_or] at h
  obtain ⟨h1, h2, h3, h4, h5, h6, h7, h8, h9, h10, h11, h12, h13, h14⟩ := h
  simp [windClean, windStep1, windStep2, windStep3, windStep4, windStep5,
    windStep6, h1, h2, h3, h4, h5, h6, h7, h8, h9, h10, h11, h12, h13, h14]

/-! ## Lemmas: row equality and de-duplication -/

theorem eqOn_comm (cols : List Column) (r1 r2 : Row) :
    eqOn cols r1 r2 = eqOn cols r2 r1 := by
  unfold eqOn
  induction cols with
  | nil => rfl
  | cons c cs ih =>
    simp only [List.all_cons, ih]
    congr 1
    simp [eq_comm]

theorem mem_of_mem_dedupAux (cols : List Column) (l : List Row) :
    ∀ seen r, r ∈ dedupAux cols seen l → r ∈ l := by
  induction l with
  | nil =>
    intro seen r h
    simp [dedupAux] at h
  | cons x xs ih =>
    intro seen r h
    simp only [dedupAux] at h
    by_cases hx : seen.any (fun r' => eqOn cols r' x) = true
    · rw [if_pos hx] at h
      exact List.mem_cons_of_mem _ (ih _ _ h)
    · rw [if_neg hx] at h
      rcases List.mem_cons.mp h with rfl | h'
      · exact List.mem_cons_self _ _
      · exact List.mem_cons_of_mem _ (ih _ _ h')

theorem dedupAux_not_eq_seen (cols : List Column) (l : List Row) :
    ∀ seen s r, s ∈ seen → r ∈ dedupAux cols seen l →
      eqOn cols s r = false := by
  induction l with
  | nil =>
    intro seen s r _ hr
    simp [dedupAux] at hr
  | cons x xs ih =>
    intro seen s r hs hr
    simp only [dedupAux] at hr
    by_cases hx : seen.any (fun r' => eqOn cols r' x) = true
    · rw [if_pos hx] at hr
      exact ih seen s r hs hr
    · rw [if_neg hx] at hr
      rcases List.mem_cons.mp hr with rfl | hr'
      · have := List.any_eq_false.mp (Bool.of_not_eq_true hx) s hs
        exact Bool.of_not_eq_true this
      · exact ih (x :: seen) s r (List.mem_cons_of_mem _ hs) hr'

theorem dedupAux_distinct (cols : List Column) (l : List Row) :
    ∀ seen, DistinctOn cols (dedupAux cols seen l) := by
  induction l with
  | nil =>
    intro seen
    simp [dedupAux, DistinctOn]
  | cons x xs ih =>
    intro seen
    simp only [dedupAux]
    by_cases hx : seen.any (fun r' => eqOn cols r' x) = true
    · rw [if_pos hx]
      exact ih seen
    · rw [if_neg hx]
      refine List.Pairwise.cons ?_ (ih (x :: seen))
      intro b hb
      exact dedupAux_not_eq_seen cols xs (x :: seen) x b
        (List.mem_cons_self _ _) hb

theorem dedupAux_eq_self (cols : List Column) (l : List Row) :
    ∀ seen, (∀ r ∈ l, ∀ s ∈ seen, eqOn cols s r = false) →
      DistinctOn cols l → dedupAux cols seen l = l := by
  induction l with
  | nil =>
    intro seen _ _
    rfl
  | cons x xs ih =>
    intro seen hseen hdist
    have hx : seen.any (fun r' => eqOn cols r' x) = false :=
      List.any_eq_false.mpr (fun s hs => by
        simp [hseen x (List.mem_cons_self _ _) s hs])
    simp only [dedupAux, hx, Bool.false_eq_true, if_false]
    rcases List.pairwise_cons.mp hdist with ⟨hhead, htail⟩
    congr 1
    refine ih (x :: seen) ?_ htail
    intro r hr s hs
    rcases List.mem_cons.mp hs with rfl | hs'
    · exact hhead r hr
    · exact hseen r (List.mem_cons_of_mem _ hr) s hs'

theorem dropDuplicates_distinct (cols : List Column) (t : Table) :
    DistinctOn cols (dropDuplicates cols t) :=
  dedupAux_distinct cols t []

theorem mem_of_mem_dropDuplicates {cols : List Column} {t : Table} {r : Row}
    (h : r ∈ dropDuplicates cols t) : r ∈ t :=
  mem_of_mem_dedupAux cols t [] r h

theorem dropDuplicates_eq_self {cols : List Column} {t : Table}
    (h : DistinctOn cols t) : dropDuplicates cols t = t :=
  dedupAux_eq_self cols t [] (by intro r _ s hs; simp at hs) h

theorem noDupsB_of_distinct (cols : List Column) (l : List Row)
    (h : DistinctOn cols l) : noDupsB cols l = true := by
  induction l with
  | nil => rfl
  | cons r rs ih =>
    rcases List.pairwise_cons.mp h with ⟨h1, h2⟩
    simp only [noDupsB, Bool.and_eq_true]
    exact ⟨List.all_eq_true.mpr (fun r' hr' => by simp [h1 r' hr']), ih h2⟩

/-! ## Lemmas: dropna, fillna, colVals, median -/

theorem mem_dropnaRows {cs : List Column} {t : Table} {r : Row}
    (h : r ∈ dropnaRows cs t) :
    r ∈ t ∧ ∀ c ∈ cs, (r c).isSome = true := by
  rcases List.mem_filter.mp h with ⟨h1, h2⟩
  exact ⟨h1, fun c hc => List.all_eq_true.mp h2 c hc⟩

theorem dropnaRows_eq_self {cs : List Column} {t : Table}
    (h : ∀ r ∈ t, ∀ c ∈ cs, (r c).isSome = true) : dropnaRows cs t = t :=
  List.filter_eq_self.mpr fun r hr =>
    List.all_eq_true.mpr fun c hc => h r hr c hc

theorem fillnaRow_apply_ne (c : Column) (v : Val) (r : Row) {c' : Column}
    (h : c' ≠ c) : fillnaRow c v r c' = r c' := if_neg h

theorem fillnaRow_apply_self (c : Column) (v : Val) (r : Row) :
    ((fillnaRow c v r) c).isSome = true := by
  simp only [fillnaRow, if_pos rfl]
  cases r c <;> simp

theorem fillnaRow_isSome (c : Column) (v : Val) (r : Row) (c' : Column)
    (h : (r c').isSome = true) : ((fillnaRow c v r) c').isSome = true := by
  by_cases hc : c' = c
  · subst hc
    exact fillnaRow_apply_self c' v r
  · rw [fillnaRow_apply_ne c v r hc]
    exact h

theorem fillnaRow_eq_self (c : Column) (v : Val) (r : Row)
    (h : (r c).isSome = true) : fillnaRow c v r = r := by
  funext c'
  by_cases hc : c' = c
  · subst hc
    rcases Option.isSome_iff_exists.mp h with ⟨x, hx⟩
    simp [fillnaRow, hx]
  · exact fillnaRow_apply_ne c v r hc

theorem map_eq_self_of {α : Type _} (l : List α) (f : α → α)
    (h : ∀ a ∈ l, f a = a) : l.map f = l := by
  induction l with
  | nil => rfl
  | cons x xs ih =>
    simp only [List.map_cons, h x (List.mem_cons_self _ _)]
    rw [ih (fun a ha => h a (List.mem_cons_of_mem _ ha))]

theorem fillna_isSome_of {c : Column} {v : Option ℚ} {t : Table} {c' : Column}
    (h : ∀ r ∈ t, (r c').isSome = true) :
    ∀ r ∈ fillna c v t, (r c').isSome = true := by
  cases v with
  | none => exact h
  | some q =>
    intro r hr
    rcases List.mem_map.mp hr with ⟨r0, hr0, rfl⟩
    exact fillnaRow_isSome c (Val.num q) r0 c' (h r0 hr0)

theorem fillna_target_isSome {c : Column} {q : ℚ} {t : Table} :
    ∀ r ∈ fillna c (some q) t, (r c).isSome = true := by
  intro r hr
  rcases List.mem_map.mp hr with ⟨r0, _, rfl⟩
  exact fillnaRow_apply_self c (Val.num q) r0

theorem fillna_eq_self_of {c : Column} {v : Option ℚ} {t : Table}
    (h : ∀ r ∈ t, (r c).isSome = true) : fillna c v t = t := by
  cases v with
  | none => rfl
  | some q =>
    exact map_eq_self_of t _ fun r hr =>
      fillnaRow_eq_self c (Val.num q) r (h r hr)

theorem colVals_fillna_ne {c : Column} {v : Option ℚ} {t : Table}
    {c' : Column} (h : c' ≠ c) :
    colVals (fillna c v t) c' = colVals t c' := by
  cases v with
  | none => rfl
  | some q =>
    show List.filterMap _ (t.map _) = _
    rw [List.filterMap_map]
    apply List.filterMap_congr
    intro r _
    simp only [Function.comp_apply, fillnaRow_apply_ne c (Val.num q) r h]

theorem colVals_eq_nil_of_sub {t t' : Table} {c : Column}
    (hsub : ∀ r ∈ t', r ∈ t) (h : colVals t c = []) : colVals t' c = [] := by
  unfold colVals at h ⊢
  rw [List.filterMap_eq_nil_iff] at h ⊢
  exact fun r hr => h r (hsub r hr)

theorem length_insertSorted (x : ℚ) (l : List ℚ) :
    (insertSorted x l).length = l.length + 1 := by
  induction l with
  | nil => rfl
  | cons y ys ih =>
    simp only [insertSorted]
    by_cases h : x ≤ y
    · rw [if_pos h]
      rfl
    · rw [if_neg h]
      simp [ih]

theorem length_sortQ (l : List ℚ) : (sortQ l).length = l.length := by
  induction l with
  | nil => rfl
  | cons x xs ih =>
    show (insertSorted x (sortQ xs)).length = _
    rw [length_insertSorted, ih]
    rfl

theorem median_eq_none {l : List ℚ} (h : median l = none) : l = [] := by
  by_cases h0 : (sortQ l).length = 0
  · have : l.length = 0 := by rw [← length_sortQ]; exact h0
    exact List.length_eq_zero.mp this
  · exfalso
    unfold median at h
    rw [if_neg h0] at h
    by_cases h1 : (sortQ l).length % 2 = 1
    · rw [if_pos h1] at h
      exact Option.noConfusion h
    · rw [if_neg h1] at h
      exact Option.noConfusion h

theorem median_isSome {l : List ℚ} (h : l ≠ []) :
    (median l).isSome = true := by
  cases hm : median l with
  | none => exact absurd (median_eq_none hm) h
  | some q => rfl

/-! ## Lemmas: the resolver chain -/

theorem resolveStep2_isSome_of {t : Table} {c' : Column}
    (h : ∀ r ∈ resolveStep1 t, (r c').isSome = true) :
    ∀ r ∈ resolveStep2 t, (r c').isSome = true := by
  unfold resolveStep2
  exact fillna_isSome_of h

theorem resolveStep3_isSome_of {t : Table} {c' : Column}
    (h : ∀ r ∈ resolveStep2 t, (r c').isSome = true) :
    ∀ r ∈ resolveStep3 t, (r c').isSome = true := by
  unfold resolveStep3
  exact fillna_isSome_of h

theorem resolveRows_isSome_lowMiss (cols : List Column) (t : Table) :
    ∀ r ∈ resolveRows cols t, ∀ c ∈ lowMissCols, (r c).isSome = true := by
  intro r hr c hc
  exact resolveStep3_isSome_of
    (resolveStep2_isSome_of (fun r' hr' => (mem_dropnaRows hr').2 c hc))
    r (mem_of_mem_dropDuplicates hr)

theorem colVals_resolveStep2_wc (t : Table) :
    colVals (resolveStep2 t) Column.Wind_Chill_F =
      colVals (resolveStep1 t) Column.Wind_Chill_F := by
  unfold resolveStep2
  exact colVals_fillna_ne (by decide)

theorem colVals_resolveStep3_prec (t : Table) :
    colVals (resolveStep3 t) Column.Precipitation_in =
      colVals (resolveStep2 t) Column.Precipitation_in := by
  unfold resolveStep3
  exact colVals_fillna_ne (by decide)

theorem resolveStep2_prec_isSome {t : Table}
    (hp : colVals (resolveStep1 t) Column.Precipitation_in ≠ []) :
    ∀ r ∈ resolveStep2 t, (r Column.Precipitation_in).isSome = true := by
  rcases Option.isSome_iff_exists.mp (median_isSome hp) with ⟨q, hq⟩
  unfold resolveStep2
  rw [hq]
  exact fillna_target_isSome

theorem resolveStep3_wc_isSome {t : Table}
    (hw : colVals (resolveStep1 t) Column.Wind_Chill_F ≠ []) :
    ∀ r ∈ resolveStep3 t, (r Column.Wind_Chill_F).isSome = true := by
  have h2 : colVals (resolveStep2 t) Column.Wind_Chill_F ≠ [] := by
    rw [colVals_resolveStep2_wc]
    exact hw
  rcases Option.isSome_iff_exists.mp (median_isSome h2) with ⟨q, hq⟩
  unfold resolveStep3
  rw [hq]
  exact fillna_target_isSome

theorem resolveRows_distinct (cols : List Column) (t : Table) :
    DistinctOn cols (resolveRows cols t) :=
  dedupAux_distinct cols (resolveStep3 t) []

theorem mem_resolveStep3_of_mem_resolveRows {cols : List Column} {t : Table}
    {r : Row} (h : r ∈ resolveRows cols t) : r ∈ resolveStep3 t :=
  mem_of_mem_dropDuplicates h

/-- Step 2 applied after a full resolution is the identity. -/
theorem resolveStep2_resolveRows (cols : List Column) (t : Table)
    (h1 : resolveStep1 (resolveRows cols t) = resolveRows cols t) :
    resolveStep2 (resolveRows cols t) = resolveRows cols t := by
  unfold resolveStep2
  rw [h1]
  cases hm2 : median (colVals (resolveRows cols t) Column.Precipitation_in) with
  | none => rfl
  | some q =>
    have hone : colVals (resolveRows cols t) Column.Precipitation_in ≠ [] := by
      intro hnil
      rw [hnil] at hm2
      exact Option.noConfusion hm2
    have h3ne : colVals (resolveStep3 t) Column.Precipitation_in ≠ [] := by
      intro hnil
      exact hone (colVals_eq_nil_of_sub
        (fun r hr => mem_resolveStep3_of_mem_resolveRows hr) hnil)
    have h2ne : colVals (resolveStep2 t) Column.Precipitation_in ≠ [] := by
      rw [← colVals_resolveStep3_prec]
      exact h3ne
    have h1ne : colVals (resolveStep1 t) Column.Precipitation_in ≠ [] := by
      intro hnil
      apply h2ne
      have e2 : resolveStep2 t = resolveStep1 t := by
        unfold resolveStep2
        have : median (colVals (resolveStep1 t) Column.Precipitation_in) = none := by
          rw [hnil]
          rfl
        rw [this]
        rfl
      rw [e2]
      exact hnil
    have hsome : ∀ r ∈ resolveRows cols t,
        (r Column.Precipitation_in).isSome = true := fun r hr =>
      resolveStep3_isSome_of (resolveStep2_prec_isSome h1ne) r
        (mem_resolveStep3_of_mem_resolveRows hr)
    rw [← hm2]
    exact fillna_eq_self_of hsome

/-- Step 3 applied after a full resolution is the identity. -/
theorem resolveStep3_resolveRows (cols : List Column) (t : Table)
    (h2 : resolveStep2 (resolveRows cols t) = resolveRows cols t) :
    resolveStep3 (resolveRows cols t) = resolveRows cols t := by
  unfold resolveStep3
  rw [h2]
  cases hm3 : median (colVals (resolveRows cols t) Column.Wind_Chill_F) with
  | none => rfl
  | some q =>
    have hone : colVals (resolveRows cols t) Column.Wind_Chill_F ≠ [] := by
      intro hnil
      rw [hnil] at hm3
      exact Option.noConfusion hm3
    have h3ne : colVals (resolveStep3 t) Column.Wind_Chill_F ≠ [] := by
      intro hnil
      exact hone (colVals_eq_nil_of_sub
        (fun r hr => mem_resolveStep3_of_mem_resolveRows hr) hnil)
    have h1ne : colVals (resolveStep1 t) Column.Wind_Chill_F ≠ [] := by
      intro hnil
      apply h3ne
      have h2nil : colVals (resolveStep2 t) Column.Wind_Chill_F = [] := by
        rw [colVals_resolveStep2_wc]
        exact hnil
      have e3 : resolveStep3 t = resolveStep2 t := by
        unfold resolveStep3
        rw [h2nil]
        rfl
      rw [e3]
      exact h2nil
    have hsome : ∀ r ∈ resolveRows cols t,
        (r Column.Wind_Chill_F).isSome = true := fun r hr =>
      resolveStep3_wc_isSome h1ne r (mem_resolveStep3_of_mem_resolveRows hr)
    rw [← hm3]
    exact fillna_eq_self_of hsome

/-! ## Lemmas: the balancer -/

theorem filter_take_self (t : Table) (v : Val) (n : Nat) :
    List.filter (fun r => decide (r Column.Severity4 = some v))
      ((List.filter (fun r => decide (r Column.Severity4 = some v)) t).take n) =
      (List.filter (fun r => decide (r Column.Severity4 = some v)) t).take n :=
  List.filter_eq_self.mpr fun _ hr =>
    (List.mem_filter.mp (List.take_subset _ _ hr)).2

theorem filter_take_other (t : Table) {v w : Val} (hvw : v ≠ w) (n : Nat) :
    List.filter (fun r => decide (r Column.Severity4 = some v))
      ((List.filter (fun r => decide (r Column.Severity4 = some w)) t).take n) =
      [] := by
  rw [List.filter_eq_nil_iff]
  intro r hr
  have h2 := (List.mem_filter.mp (List.take_subset _ _ hr)).2
  simp only [decide_eq_true_eq] at h2 ⊢
  rw [h2]
  intro hcon
  exact hvw (Option.some.inj hcon).symm

/-! ## The claims -/

/-- C1, counterexample: on a table with two class-0 rows and one class-1
row, the balanced output has 2 class-0 rows and 1 class-1 row — the
classes are not equal, and the class-0 count is not
`min(count0, count1, 110000) = 1`.  The code truncates each class
independently; it never propagates the smaller class's count to the
other class. -/
theorem c1_counterexample :
    ¬(countLabel (balancer tC1) (Val.num 0) = countLabel (balancer tC1) (Val.num 1) ∧
      countLabel (balancer tC1) (Val.num 0) =
        min (min (countLabel tC1 (Val.num 0)) (countLabel tC1 (Val.num 1))) 110000) := by
  decide

/-- C1, amended: the balanced output of the Target Binarizer & Balancer
contains `min(count(class c in input), 110000)` rows of class `c` for
each class `c ∈ {0, 1}` independently; the two output counts coincide
only when these two minima happen to be equal (e.g. when both classes
reach the cap), and a shortfall in one class is not propagated to the
other. -/
theorem c1_amended (t : Table) :
    countLabel (balancer t) (Val.num 0) = min (countLabel t (Val.num 0)) 110000 ∧
    countLabel (balancer t) (Val.num 1) = min (countLabel t (Val.num 1)) 110000 := by
  constructor
  · simp only [countLabel, balancer]
    rw [List.filter_append, filter_take_self,
      filter_take_other t (show (Val.num 0 : Val) ≠ Val.num 1 by decide)]
    simp only [List.length_append, List.length_nil, Nat.add_zero,
      List.length_take]
    rw [Nat.min_comm]
  · simp only [countLabel, balancer]
    rw [List.filter_append,
      filter_take_other t (show (Val.num 1 : Val) ≠ Val.num 0 by decide),
      filter_take_self]
    simp only [List.length_append, List.length_nil, Nat.zero_add,
      List.length_take]
    rw [Nat.min_comm]

/-- C2: for a row whose `Weather_Condition` is null before the
Categorical Normalizer runs, all seven derived weather indicator columns
(`Clear, Cloud, Rain, Heavy_Rain, Snow, Heavy_Snow, Fog`) are null
(missing) after the normalizer stage completes, not 0. -/
theorem c2_null_weather_propagates :
    deriveWeather none = ⟨none, none, none, none, none, none, none⟩ := rfl

/-- C3, counterexample: a one-row input whose `Side` and
`Precipitation(in)` cells are null (and whose low-missingness columns
are all populated) passes through the resolver unchanged in those
cells — `Side` is in no `dropna` subset and an all-null
`Precipitation(in)` column has a null median, so nulls remain in the
output, contradicting the zero-nulls guarantee. -/
theorem c3_counterexample :
    noNulls (resolverStage colsBeforeResolver [rC3]).1
      (resolverStage colsBeforeResolver [rC3]).2 = false := by
  decide

/-- C3, amended: after the resolver, the output has zero duplicate rows,
and zero nulls in the columns the stage actually handles — the 22
`dropna`-subset columns unconditionally, and `Precipitation(in)` /
`Wind_Chill(F)` provided each column has at least one non-null numeric
value after the row deletion (otherwise its median is `NaN` and the
imputation is a no-op).  Retained columns outside this set (e.g. `Side`,
`County`, `State`) may keep nulls. -/
theorem c3_amended (cols : List Column) (t : Table)
    (hp : colVals (resolveStep1 t) Column.Precipitation_in ≠ [])
    (hw : colVals (resolveStep1 t) Column.Wind_Chill_F ≠ []) :
    noNulls (lowMissCols ++ [Column.Precipitation_in, Column.Wind_Chill_F])
      (resolverStage cols t).2 = true ∧
    noDupsB (resolverStage cols t).1 (resolverStage cols t).2 = true := by
  constructor
  · apply List.all_eq_true.mpr
    intro r hr
    apply List.all_eq_true.mpr
    intro c hc
    rcases List.mem_append.mp hc with hc1 | hc2
    · exact resolveRows_isSome_lowMiss (dropColumns [.Number] cols) t r hr c hc1
    · rcases List.mem_cons.mp hc2 with rfl | hc3
      · exact resolveStep3_isSome_of (resolveStep2_prec_isSome hp) r
          (mem_resolveStep3_of_mem_resolveRows hr)
      · rcases List.mem_cons.mp hc3 with rfl | hc4
        · exact resolveStep3_wc_isSome hw r
            (mem_resolveStep3_of_mem_resolveRows hr)
        · exact absurd hc4 (List.not_mem_nil c)
  · exact noDupsB_of_distinct _ _ (resolveRows_distinct (dropColumns [.Number] cols) t)

/-- C3, witness for the amended claim: a fully populated one-row table
satisfies both hypotheses and the conclusion. -/
theorem c3_amended_witness :
    noNulls (lowMissCols ++ [Column.Precipitation_in, Column.Wind_Chill_F])
      (resolverStage colsBeforeResolver [rW]).2 = true ∧
    noDupsB (resolverStage colsBeforeResolver [rW]).1
      (resolverStage colsBeforeResolver [rW]).2 = true :=
  c3_amended colsBeforeResolver [rW] (by decide) (by decide)

/-- C4: the Temporal Feature Extractor computes `Day` as the precomputed
non-leap cumulative month-length table entry for the month plus the
day-of-month: 2021-03-01 yields `Day = 60` (31+28+1); the computation
never consults the year, so a leap-year date (2020-03-01) gets the same
non-leap value. -/
theorem c4_day_of_year :
    dayOfYear 2021 3 1 = 60 ∧ dayOfYear 2020 3 1 = 60 ∧
      ∀ y y' m d, dayOfYear y m d = dayOfYear y' m d :=
  ⟨by decide, by decide, fun _ _ _ _ => rfl⟩

/-- C5: after wind-direction canonicalization, every value is one of
`{N, S, E, W, CALM, VAR}` or is an uncovered value passed through
unmodified; the mapping is by case-sensitive exact string equality on
the fixed table. -/
theorem c5_wind_direction (s : String) :
    windClean s ∈ windCanonical ∨ (windClean s = s ∧ s ∉ windCovered) := by
  by_cases hc : s ∈ windCovered
  · left
    simp only [windCovered, List.mem_cons, List.not_mem_nil, or_false] at hc
    rcases hc with rfl | rfl | rfl | rfl | rfl | rfl | rfl | rfl | rfl | rfl |
      rfl | rfl | rfl | rfl
    all_goals decide
  · exact Or.inr ⟨windClean_not_covered s hc, hc⟩

/-- C6: a row whose non-null `Weather_Condition` contains the substring
"Rain" case-insensitively has `Rain = 1` after the Categorical
Normalizer. -/
theorem c6_rain_indicator (s : String) (h : containsCI "Rain" s = true) :
    indicatorFinal rainKws (some s) = some 1 :=
  rainInd_of_rain h

/-- C6, witness: the text "Light Rain" contains "Rain" and gets
`Rain = 1`. -/
theorem c6_rain_indicator_witness :
    containsCI "Rain" "Light Rain" = true ∧
    indicatorFinal rainKws (some "Light Rain") = some 1 :=
  ⟨by decide, c6_rain_indicator "Light Rain" (by decide)⟩

/-- C7: the row-level Missing-Data & Duplicate Resolver (lines 274–300:
row deletion on the low-missingness columns, the two median
imputations, de-duplication) is idempotent — applying it to its own
output drops no rows, imputes nothing, and returns the output
unchanged. -/
theorem c7_resolver_idempotent (cols : List Column) (t : Table) :
    resolveRows cols (resolveRows cols t) = resolveRows cols t := by
  have h1 : resolveStep1 (resolveRows cols t) = resolveRows cols t :=
    dropnaRows_eq_self (resolveRows_isSome_lowMiss cols t)
  have h2 := resolveStep2_resolveRows cols t h1
  have h3 := resolveStep3_resolveRows cols t h2
  show dropDuplicates cols (resolveStep3 (resolveRows cols t)) = resolveRows cols t
  rw [h3]
  exact dropDuplicates_eq_self (resolveRows_distinct cols t)

/-- C8, counterexample: a two-row input in which the retained column
`Side` carries a single value "R" (while `Severity` varies) — after the
Column Pruner, `Side` is still present and has unique-value count 1, so
the pruner does not enforce the no-single-unique-value invariant; only
the two hardcoded columns are dropped. -/
theorem c8_counterexample :
    Column.Side ∈ columnPruner initialCols ∧
    uniqueCount [rA, rB] Column.Side = 1 ∧
    uniqueCount [rA, rB] Column.Severity = 2 := by
  decide

/-- C8, amended: the Column Pruner drops exactly the fixed hardcoded
lists (identifier/leakage columns, plus `Country` and `Turning_Loop`,
the latter two motivated by a printed unique-count inspection) and
retains every other column regardless of the table's values, so a
retained column may contain a single unique value. -/
theorem c8_amended (cols : List Column) (c : Column) :
    c ∈ columnPruner cols ↔
      c ∈ cols ∧ c ∉ leakageDrop ∧ c ∉ singleClassDrop := by
  simp only [columnPruner, dropColumns, List.mem_filter, Bool.not_eq_true',
    decide_eq_false_iff_not, and_assoc]

/-- C9: the Target Binarizer gives `Severity4 = 1` exactly when the
original `Severity` equals 4, `Severity4 = 0` otherwise, and the
original `Severity` column is absent from the output schema. -/
theorem c9_binarizer (cols : List Column) (r : Row) :
    (binarizeRow r Column.Severity4 = some (Val.num 1) ↔
      r Column.Severity = some (Val.num 4)) ∧
    (binarizeRow r Column.Severity4 = some (Val.num 0) ↔
      ¬r Column.Severity = some (Val.num 4)) ∧
    Column.Severity ∉ binarizeCols cols := by
  refine ⟨?_, ?_, ?_⟩
  · by_cases h : r Column.Severity = some (Val.num 4) <;>
      simp [binarizeRow, severity4Val, h]
  · by_cases h : r Column.Severity = some (Val.num 4) <;>
      simp [binarizeRow, severity4Val, h]
  · simp [binarizeCols, dropColumns, List.mem_filter]

/-- C10: for a non-null weather text, `Heavy_Rain = 1` implies
`Rain = 1`, because every `Heavy_Rain` keyword contains "Rain" or
"storm" case-insensitively. -/
theorem c10_heavy_rain_implies_rain (s : String)
    (h : indicatorFinal heavyRainKws (some s) = some 1) :
    indicatorFinal rainKws (some s) = some 1 := by
  have hc : strContainsAnyCI heavyRainKws s = true := by
    by_contra hcon
    have hb : strContainsAnyCI heavyRainKws s = false := Bool.of_not_eq_true hcon
    simp [indicatorFinal, indicatorInit, hb] at h
  simp only [strContainsAnyCI, heavyRainKws, List.any_cons, List.any_nil,
    Bool.or_eq_true, Bool.or_false] at hc
  rcases hc with h1 | h1 | h1 | h1
  · refine rainInd_of_rain ?_
    have hr : hasSubstr (lowerL "Rain") (lowerL "Heavy Rain") = true := by decide
    exact hasSubstr_trans hr h1
  · refine rainInd_of_rain ?_
    have hr : hasSubstr (lowerL "Rain") (lowerL "Rain Shower") = true := by decide
    exact hasSubstr_trans hr h1
  · refine rainInd_of_storm ?_
    have hr : hasSubstr (lowerL "storm") (lowerL "Heavy T-Storm") = true := by decide
    exact hasSubstr_trans hr h1
  · refine rainInd_of_storm ?_
    have hr : hasSubstr (lowerL "storm") (lowerL "Heavy Thunderstorms") = true := by
      decide
    exact hasSubstr_trans hr h1

/-- C10, witness: the text "Heavy Rain" sets `Heavy_Rain = 1` and
therefore `Rain = 1`. -/
theorem c10_heavy_rain_implies_rain_witness :
    indicatorFinal heavyRainKws (some "Heavy Rain") = some 1 ∧
    indicatorFinal rainKws (some "Heavy Rain") = some 1 :=
  ⟨by decide, c10_heavy_rain_implies_rain "Heavy Rain" (by decide)⟩

end USAcc
